import Mathlib

/-!
Verification development for the phoenixhub staff-directory repository.

The embedding below translates, from `src/src/pages/Dashboard.tsx` and
`src/src/utils/formatters.ts`:

* the `StaffProfile` and `RolePermission` record shapes used by the
  multi-role `Directory` component (Dashboard.tsx lines 2313-2351);
* the RBAC roster function `getVisibleStaffAndMasking`
  (Dashboard.tsx lines 2445-2475);
* the profile-save handler `handleSaveClick` (Dashboard.tsx lines 826-850);
* the phone formatter `formatPhoneNumber` (formatters.ts lines 1-14);
* the remote store's upsert-by-composite-key operation on the
  `role_permissions` table, which lives in the external data store and is
  modelled from the spec.

JavaScript `null`/`undefined`-able values are embedded as `Option`;
`x || []` becomes `Option.getD x []`; `s?.toLowerCase()` becomes
`Option.map jsToLowerCase`; array `.find` becomes `List.find?`,
`.includes`/`.some`/`.filter`/`.map` become `List.contains`/`List.any`/
`List.filter`/`List.map`.
-/

namespace PhoenixHub

/-- `interface StaffProfile` of the multi-role `Directory` component
(Dashboard.tsx lines 2313-2334): `role: string[]`, `department: string`
(nullable at runtime: the code guards it with `?.`), `clinic_locations:
string[]` (nullable: the code guards it with `|| []`), plus the optional
display fields. -/
structure StaffProfile where
  id : String
  role : List String
  department : Option String
  clinic_locations : Option (List String)
  work_phone : String
  bio : String
  job_title : Option String
  employee_id : Option String
  preferred_name : Option String
  legal_first_name : Option String
  legal_middle_name : Option String
  legal_last_name : Option String
  display_name : Option String
  work_email : Option String
  practitioner_license_number : Option String
  highest_education : Option String
  profile_photo_url : Option String
  employment_status : Option String
  employment_type : Option String
  fluent_languages : Option (List String)
deriving DecidableEq

/-- `interface RolePermission` (Dashboard.tsx lines 2345-2351):
`viewer_role`, `target_department`, `can_view`, `visible_fields: string[]`
(nullable: the code guards it with `|| []`). -/
structure RolePermission where
  id : String
  viewer_role : String
  target_department : String
  can_view : Bool
  visible_fields : Option (List String)
deriving DecidableEq

/-- Model of JavaScript `String.prototype.toLowerCase` as used on
department names: lowercase each character. -/
def jsToLowerCase (s : String) : String :=
  String.mk (s.data.map Char.toLower)

/-- `const personDept = person.department?.toLowerCase();`
(Dashboard.tsx lines 2459 and 2463). -/
def lowerDept (person : StaffProfile) : Option String :=
  person.department.map jsToLowerCase

/-- `rolePermissions.find(p => p.target_department === personDept)`
(Dashboard.tsx lines 2460 and 2463): first rule in the fetched list whose
`target_department` equals the target's lowercased department; `===`
against `undefined` is `false`, hence the `Option` equality. -/
def findDeptRule (rolePermissions : List RolePermission)
    (personDept : Option String) : Option RolePermission :=
  rolePermissions.find? (fun p => some p.target_department == personDept)

/-- `return rule && rule.can_view;` (Dashboard.tsx lines 2459-2461): the
department gate of the filter closure. -/
def deptGate (rolePermissions : List RolePermission)
    (person : StaffProfile) : Bool :=
  match findDeptRule rolePermissions (lowerDept person) with
  | some rule => rule.can_view
  | none => false

/-- The filter closure of `getVisibleStaffAndMasking` (Dashboard.tsx lines
2450-2461): the location gate for `management` viewers without the
`Headquarter` marker, then the department gate. -/
def passesFilter (currentUserRole : List String)
    (currentUserLocations : List String)
    (rolePermissions : List RolePermission)
    (person : StaffProfile) : Bool :=
  if currentUserRole.contains "management"
      && !(currentUserLocations.contains "Headquarter") then
    if !((person.clinic_locations.getD []).any
        (fun loc => currentUserLocations.contains loc))
    then false
    else deptGate rolePermissions person
  else deptGate rolePermissions person

/-- The map closure of `getVisibleStaffAndMasking` (Dashboard.tsx lines
2462-2474): re-find the department rule and clear `work_phone` and `bio`
unless listed in the rule's `visible_fields`; without a rule the person is
returned unchanged. -/
def maskPerson (rolePermissions : List RolePermission)
    (person : StaffProfile) : StaffProfile :=
  match findDeptRule rolePermissions (lowerDept person) with
  | some rule =>
    let visibleFields := rule.visible_fields.getD []
    { person with
      work_phone :=
        if visibleFields.contains "work_phone" then person.work_phone else ""
      bio := if visibleFields.contains "bio" then person.bio else "" }
  | none => person

/-- `getVisibleStaffAndMasking` (Dashboard.tsx lines 2445-2475).
`currentUserRole : string[] | null` starts as `null`, so it is an
`Option (List String)`; `if (!currentUserRole || currentUserRole.length
=== 0) return [];` then `staff.filter(...).map(...)`. -/
def getVisibleStaffAndMasking (currentUserRole : Option (List String))
    (currentUserLocations : List String)
    (rolePermissions : List RolePermission)
    (staff : List StaffProfile) : List StaffProfile :=
  match currentUserRole with
  | none => []
  | some roles =>
    if roles.length == 0 then []
    else
      (staff.filter
        (passesFilter roles currentUserLocations rolePermissions)).map
        (maskPerson rolePermissions)

/-- `formatPhoneNumber` (formatters.ts lines 1-14), modelled on the
character list of the string.  `replace(/\D/g, '')` keeps exactly the
digit characters; the anchored regex `^(\d{3})(\d{3})(\d{4})$` matches
exactly when the cleaned string is ten digit characters, and its three
groups are then the first three, next three and last four of them, joined
with `-`; otherwise the original string is returned. -/
def formatPhoneNumber (phoneNumberString : String) : String :=
  let cleaned := phoneNumberString.data.filter Char.isDigit
  if cleaned.length == 10 && cleaned.all Char.isDigit then
    String.mk (cleaned.take 3 ++ ('-' :: (cleaned.drop 3).take 3)
      ++ ('-' :: (cleaned.drop 3).drop 3))
  else phoneNumberString

example :
    formatPhoneNumber "(604) 555-1234" = "604-555-1234" := by decide

example : formatPhoneNumber "12345" = "12345" := by decide

/-- A profile with every optional field absent and every string empty;
used as the base for the concrete profiles of the examples below. -/
def blankProfile : StaffProfile :=
  ⟨"", [], none, none, "", "", none, none, none, none, none, none, none,
    none, none, none, none, none, none, none⟩

/-- `List.find?` only returns elements satisfying the predicate (stated
with the predicate explicit, for unification). -/
theorem find?_pred {α : Type} (p : α → Bool) {l : List α} {a : α}
    (h : l.find? p = some a) : p a = true :=
  List.find?_some h

/-- A rule found by `findDeptRule` is a member of the permission list and
matches the looked-up department. -/
theorem findDeptRule_mem {perms : List RolePermission} {o : Option String}
    {rule : RolePermission} (h : findDeptRule perms o = some rule) :
    rule ∈ perms ∧ some rule.target_department = o := by
  unfold findDeptRule at h
  have hp := find?_pred (fun p : RolePermission => some p.target_department == o) h
  exact ⟨List.mem_of_find?_eq_some h, eq_of_beq hp⟩

/-- Any member of the roster arises from a staff member that passed the
filter closure, mapped through the mask closure. -/
theorem mem_getVisible {ro : Option (List String)} {locs : List String}
    {perms : List RolePermission} {staff : List StaffProfile}
    {q : StaffProfile} (hq : q ∈ getVisibleStaffAndMasking ro locs perms staff) :
    ∃ roles, ro = some roles ∧
      ∃ p ∈ staff, passesFilter roles locs perms p = true ∧
        q = maskPerson perms p := by
  cases ro with
  | none => simp [getVisibleStaffAndMasking] at hq
  | some roles =>
    refine ⟨roles, rfl, ?_⟩
    cases hb : (roles.length == 0) with
    | true => simp [getVisibleStaffAndMasking, hb] at hq
    | false =>
      simp only [getVisibleStaffAndMasking, hb, Bool.false_eq_true,
        if_false, List.mem_map, List.mem_filter] at hq
      obtain ⟨p, ⟨hp, hpass⟩, hmask⟩ := hq
      exact ⟨p, hp, hpass, hmask.symm⟩

/-- Passing the whole filter closure implies passing the department gate. -/
theorem deptGate_of_passesFilter {roles locs : List String}
    {perms : List RolePermission} {p : StaffProfile}
    (h : passesFilter roles locs perms p = true) : deptGate perms p = true := by
  unfold passesFilter at h
  split at h
  · split at h
    · exact absurd h (by simp)
    · exact h
  · exact h

/-- Passing the department gate means the first matching rule exists, has
`can_view = true`, and fully determines the masked output. -/
theorem mask_of_gate {perms : List RolePermission} {p : StaffProfile}
    (h : deptGate perms p = true) :
    ∃ rule, findDeptRule perms (lowerDept p) = some rule ∧
      rule.can_view = true ∧
      maskPerson perms p =
        { p with
          work_phone :=
            if (rule.visible_fields.getD []).contains "work_phone"
            then p.work_phone else ""
          bio :=
            if (rule.visible_fields.getD []).contains "bio"
            then p.bio else "" } := by
  unfold deptGate at h
  unfold maskPerson
  cases hf : findDeptRule perms (lowerDept p) with
  | none => rw [hf] at h; exact absurd h (by simp)
  | some rule =>
    rw [hf] at h
    exact ⟨rule, rfl, h, rfl⟩

/-- The mask closure never changes the department (nor any field other
than `work_phone` and `bio`). -/
theorem maskPerson_eq_update (perms : List RolePermission)
    (p : StaffProfile) :
    maskPerson perms p =
      { p with
        work_phone := (maskPerson perms p).work_phone
        bio := (maskPerson perms p).bio } := by
  unfold maskPerson
  cases hf : findDeptRule perms (lowerDept p) <;> rfl

theorem maskPerson_department (perms : List RolePermission)
    (p : StaffProfile) :
    (maskPerson perms p).department = p.department := by
  unfold maskPerson
  cases hf : findDeptRule perms (lowerDept p) <;> rfl

theorem lowerDept_maskPerson (perms : List RolePermission)
    (p : StaffProfile) :
    lowerDept (maskPerson perms p) = lowerDept p := by
  unfold lowerDept
  rw [maskPerson_department]

theorem maskPerson_clinic_locations (perms : List RolePermission)
    (p : StaffProfile) :
    (maskPerson perms p).clinic_locations = p.clinic_locations := by
  unfold maskPerson
  cases hf : findDeptRule perms (lowerDept p) <;> rfl

/-- Every member of the roster has a matching rule with `can_view = true`
in the permission list. -/
theorem mem_getVisible_rule {ro : Option (List String)} {locs : List String}
    {perms : List RolePermission} {staff : List StaffProfile}
    {q : StaffProfile}
    (hq : q ∈ getVisibleStaffAndMasking ro locs perms staff) :
    ∃ rule ∈ perms, some rule.target_department = lowerDept q ∧
      rule.can_view = true := by
  obtain ⟨roles, -, p, -, hpass, hmask⟩ := mem_getVisible hq
  obtain ⟨rule, hfind, hview, -⟩ :=
    mask_of_gate (deptGate_of_passesFilter hpass)
  obtain ⟨hmem, htd⟩ := findDeptRule_mem hfind
  rw [hmask, lowerDept_maskPerson]
  exact ⟨rule, hmem, htd, hview⟩

/-- Claim C6: for every roster, rule set and location set, if the viewer's
role set is empty (`some []`) or absent (`none`, the initial `null` state),
`getVisibleStaffAndMasking` returns the empty list. -/
theorem c6_empty_roles (locs : List String) (perms : List RolePermission)
    (staff : List StaffProfile) :
    getVisibleStaffAndMasking none locs perms staff = [] ∧
    getVisibleStaffAndMasking (some []) locs perms staff = [] :=
  ⟨rfl, rfl⟩

/-- Claim C1: for every viewer role `r` and every permission-rule set (all
of whose rules belong to `r`, as the fetch `.in('viewer_role', currentRole)`
guarantees for a viewer whose role set is `{r}`) in which every rule for
department `d` has `can_view = false`, the roster contains no target whose
(lowercased) department is `d`, regardless of the rules' `visible_fields`;
hence no field of such a target is visible. -/
theorem c1_deny_excludes_department (r d : String) (locs : List String)
    (perms : List RolePermission) (staff : List StaffProfile)
    (_hrole : ∀ p ∈ perms, p.viewer_role = r)
    (hdeny : ∀ p ∈ perms, p.target_department = d → p.can_view = false) :
    ∀ q ∈ getVisibleStaffAndMasking (some [r]) locs perms staff,
      lowerDept q ≠ some d := by
  intro q hq hcontra
  obtain ⟨rule, hmem, htd, hview⟩ := mem_getVisible_rule hq
  rw [hcontra] at htd
  have : rule.can_view = false :=
    hdeny rule hmem (Option.some_injective _ htd)
  rw [this] at hview
  exact Bool.false_ne_true hview

/-- Concrete scenario for C1 (from the spec): viewer role set `{"rmt"}`,
single rule `{rmt, finance, can_view = false}` with a non-empty
`visible_fields`, one finance-department target: no finance target is
visible (the returned roster is in fact empty). -/
def c1Rule : RolePermission :=
  ⟨"perm1", "rmt", "finance", false, some ["bio", "work_phone"]⟩

def c1Target : StaffProfile :=
  { blankProfile with
    id := "fin1"
    role := ["front_desk"]
    department := some "finance"
    clinic_locations := some ["Burnaby"]
    work_phone := "604-111-2222"
    bio := "finance person" }

theorem c1_witness :
    (∀ p ∈ [c1Rule], p.viewer_role = "rmt") ∧
    (∀ p ∈ [c1Rule], p.target_department = "finance" → p.can_view = false) ∧
    (getVisibleStaffAndMasking (some ["rmt"]) ["Burnaby"] [c1Rule] [c1Target]
      = []) ∧
    ∀ q ∈ getVisibleStaffAndMasking (some ["rmt"]) ["Burnaby"] [c1Rule]
        [c1Target], lowerDept q ≠ some "finance" :=
  ⟨by decide, by decide, by decide,
    c1_deny_excludes_department "rmt" "finance" ["Burnaby"] [c1Rule]
      [c1Target] (by decide) (by decide)⟩

/-- Claim C10: `formatPhoneNumber` is total and deterministic: when the
digits remaining after deleting all non-digit characters are exactly
`d1..d10`, the result is `d1d2d3-d4d5d6-d7d8d9d10`; for every other input
the original string is returned unchanged. -/
theorem c10_formatPhoneNumber (s : String) :
    (∀ d1 d2 d3 d4 d5 d6 d7 d8 d9 d10 : Char,
      s.data.filter Char.isDigit = [d1, d2, d3, d4, d5, d6, d7, d8, d9, d10] →
      formatPhoneNumber s =
        String.mk [d1, d2, d3, '-', d4, d5, d6, '-', d7, d8, d9, d10]) ∧
    ((s.data.filter Char.isDigit).length ≠ 10 → formatPhoneNumber s = s) := by
  constructor
  · intro d1 d2 d3 d4 d5 d6 d7 d8 d9 d10 h
    have hall : ([d1, d2, d3, d4, d5, d6, d7, d8, d9, d10] : List Char).all
        Char.isDigit = true := by
      rw [← h]
      simp only [List.all_eq_true]
      intro c hc
      exact List.of_mem_filter hc
    unfold formatPhoneNumber
    rw [h]
    dsimp only
    rw [hall]
    rfl
  · intro hlen
    unfold formatPhoneNumber
    have hb : ((s.data.filter Char.isDigit).length == 10) = false := by
      simp [hlen]
    dsimp only
    rw [hb]
    rfl

theorem c10_witness :
    formatPhoneNumber "(604) 555-1234" = "604-555-1234" ∧
    formatPhoneNumber "12345" = "12345" :=
  ⟨((c10_formatPhoneNumber "(604) 555-1234").1
      '6' '0' '4' '5' '5' '5' '1' '2' '3' '4' (by decide)).trans (by decide),
    (c10_formatPhoneNumber "12345").2 (by decide)⟩

/-- Claim C4: the location gate.  Part one: a viewer holding the
`management` role without the `Headquarter` marker sees only targets whose
`clinic_locations` intersect the viewer's (so a target with empty
intersection is excluded even when a `can_view = true` rule exists for its
department).  Part two: a viewer not holding `management`, or holding
`Headquarter`, is never filtered by location — the roster is exactly the
department-gated, masked roster. -/
theorem c4_location_gate (roles locs : List String)
    (perms : List RolePermission) (staff : List StaffProfile) :
    ("management" ∈ roles → "Headquarter" ∉ locs →
      ∀ q ∈ getVisibleStaffAndMasking (some roles) locs perms staff,
        (q.clinic_locations.getD []).any (fun loc => locs.contains loc)
          = true) ∧
    (("management" ∉ roles ∨ "Headquarter" ∈ locs) → roles ≠ [] →
      getVisibleStaffAndMasking (some roles) locs perms staff =
        (staff.filter (deptGate perms)).map (maskPerson perms)) := by
  constructor
  · intro hm hh q hq
    obtain ⟨roles', heq, p, hp, hpass, hmask⟩ := mem_getVisible hq
    obtain rfl : roles = roles' := Option.some_injective _ heq
    have hc : (roles.contains "management"
        && !(locs.contains "Headquarter")) = true := by
      simp [List.elem_iff, hm, hh]
    unfold passesFilter at hpass
    rw [hc] at hpass
    rw [if_pos rfl] at hpass
    cases hany : ((p.clinic_locations.getD []).any
        fun loc => locs.contains loc) with
    | false => rw [hany] at hpass; simp at hpass
    | true => rw [hmask, maskPerson_clinic_locations]; exact hany
  · intro hor hne
    have hc : (roles.contains "management"
        && !(locs.contains "Headquarter")) = false := by
      cases hor with
      | inl h => simp [List.elem_iff, h]
      | inr h => simp [List.elem_iff, h]
    have hlen : (roles.length == 0) = false := by
      simp [List.length_eq_zero, hne]
    have hbody : getVisibleStaffAndMasking (some roles) locs perms staff =
        (staff.filter (passesFilter roles locs perms)).map
          (maskPerson perms) := by
      unfold getVisibleStaffAndMasking
      dsimp only
      rw [hlen]
      rfl
    rw [hbody]
    have hfc : staff.filter (passesFilter roles locs perms) =
        staff.filter (deptGate perms) := by
      apply List.filter_congr
      intro p _
      unfold passesFilter
      rw [hc]
      rfl
    rw [hfc]

/-- Rule allowing the `management` role to view the clinical department;
the location gate must still exclude non-intersecting targets. -/
def mgmtAllowRule : RolePermission :=
  ⟨"perm4", "management", "clinical", true, some []⟩

/-- A clinical-department target located only in Richmond. -/
def richmondTarget : StaffProfile :=
  { blankProfile with
    id := "rich1"
    department := some "clinical"
    clinic_locations := some ["Richmond"] }

theorem c4_witness :
    (getVisibleStaffAndMasking (some ["management", "clinical_provider"])
        ["Burnaby"] [mgmtAllowRule] [richmondTarget] = []) ∧
    (∀ q ∈ getVisibleStaffAndMasking (some ["management", "clinical_provider"])
        ["Burnaby"] [mgmtAllowRule] [richmondTarget],
      (q.clinic_locations.getD []).any
        (fun loc => (["Burnaby"] : List String).contains loc) = true) ∧
    (getVisibleStaffAndMasking (some ["rmt"]) ["Burnaby"] [mgmtAllowRule]
        [richmondTarget] =
      (([richmondTarget]).filter (deptGate [mgmtAllowRule])).map
        (maskPerson [mgmtAllowRule])) :=
  ⟨by decide,
    (c4_location_gate ["management", "clinical_provider"] ["Burnaby"]
      [mgmtAllowRule] [richmondTarget]).1 (by decide) (by decide),
    (c4_location_gate ["rmt"] ["Burnaby"] [mgmtAllowRule]
      [richmondTarget]).2 (Or.inl (by decide)) (by decide)⟩

/-- Rule for role `admin` denying the clinical department; listed first. -/
def denyClinicalRuleAdmin : RolePermission :=
  ⟨"perm2a", "admin", "clinical", false, some []⟩

/-- Rule for role `rmt` allowing the clinical department; listed second. -/
def allowClinicalRule : RolePermission :=
  ⟨"perm2b", "rmt", "clinical", true, some []⟩

/-- A clinical-department target. -/
def clinicalTarget : StaffProfile :=
  { blankProfile with id := "clin1", department := some "clinical" }

/-- Counterexample to claim C2: a viewer holding both `admin` and `rmt`,
with the fetched rules `[{admin, clinical, can_view = false}, {rmt,
clinical, can_view = true}]`, sees no clinical target — even though the
held role `rmt` has a `can_view = true` rule for that department.  The
department gate uses the first department-matching rule in the list, not a
union over the viewer's roles, so the claimed OR semantics fail. -/
theorem c2_counterexample :
    (allowClinicalRule ∈ [denyClinicalRuleAdmin, allowClinicalRule] ∧
      allowClinicalRule.viewer_role ∈ (["admin", "rmt"] : List String) ∧
      some allowClinicalRule.target_department = lowerDept clinicalTarget ∧
      allowClinicalRule.can_view = true) ∧
    getVisibleStaffAndMasking (some ["admin", "rmt"]) []
      [denyClinicalRuleAdmin, allowClinicalRule] [clinicalTarget] = [] := by
  decide

/-- Claim C2 amended: for a multi-role viewer (all fetched rules belong to
held roles), passing the department gate implies that at least one held
role has a `can_view = true` rule for the target's department — the "only
if" half of the claimed union semantics.  The "if" half is false: the gate
is decided by the first rule in the fetched list matching the department,
so an earlier denying rule of one held role shadows a later allowing rule
of another held role. -/
theorem c2_amended_first_match (roles locs : List String)
    (perms : List RolePermission) (staff : List StaffProfile)
    (hfetch : ∀ p ∈ perms, p.viewer_role ∈ roles) :
    ∀ q ∈ getVisibleStaffAndMasking (some roles) locs perms staff,
      ∃ rule ∈ perms, rule.viewer_role ∈ roles ∧
        some rule.target_department = lowerDept q ∧ rule.can_view = true := by
  intro q hq
  obtain ⟨rule, hmem, htd, hview⟩ := mem_getVisible_rule hq
  exact ⟨rule, hmem, hfetch rule hmem, htd, hview⟩

theorem c2_witness :
    ∃ rule ∈ [allowClinicalRule],
      rule.viewer_role ∈ (["rmt"] : List String) ∧
      some rule.target_department =
        lowerDept (maskPerson [allowClinicalRule] clinicalTarget) ∧
      rule.can_view = true :=
  c2_amended_first_match ["rmt"] [] [allowClinicalRule] [clinicalTarget]
    (by decide) (maskPerson [allowClinicalRule] clinicalTarget) (by decide)

/-- The viewer's own staff profile: `id` is the current user's id, role
`rmt`, clinical department, non-empty phone and bio. -/
def c3Self : StaffProfile :=
  { blankProfile with
    id := "viewer1"
    role := ["rmt"]
    department := some "clinical"
    work_phone := "604-222-3333"
    bio := "my bio" }

/-- Counterexample to claim C3: the viewer who owns `c3Self` (role set
`{"rmt"}`) browses a roster containing exactly their own profile, with an
empty permission-rule set.  The claim requires the own profile to always
be present unredacted; the function returns the empty list — it contains
no self-exemption and never consults the viewer's identity. -/
theorem c3_counterexample :
    getVisibleStaffAndMasking (some ["rmt"]) [] [] [c3Self] = [] := by
  decide

/-- Claim C3 amended: there is no self-exemption — the viewer's own
profile passes through the same gates and masking as any other profile; in
particular, whenever every fetched rule for the viewer's own department
denies viewing, the viewer's own profile (raw or masked) is absent from
the output. -/
theorem c3_amended_no_self_exemption (roles locs : List String)
    (perms : List RolePermission) (staff : List StaffProfile)
    (self : StaffProfile)
    (hdeny : ∀ p ∈ perms, some p.target_department = lowerDept self →
      p.can_view = false) :
    self ∉ getVisibleStaffAndMasking (some roles) locs perms staff ∧
    maskPerson perms self ∉
      getVisibleStaffAndMasking (some roles) locs perms staff := by
  constructor
  · intro hq
    obtain ⟨rule, hmem, htd, hview⟩ := mem_getVisible_rule hq
    have hfalse := hdeny rule hmem htd
    rw [hfalse] at hview
    exact Bool.false_ne_true hview
  · intro hq
    obtain ⟨rule, hmem, htd, hview⟩ := mem_getVisible_rule hq
    rw [lowerDept_maskPerson] at htd
    have hfalse := hdeny rule hmem htd
    rw [hfalse] at hview
    exact Bool.false_ne_true hview

/-- A rule denying the viewer's own (clinical) department to their own
role. -/
def c3DenyRule : RolePermission :=
  ⟨"perm3", "rmt", "clinical", false, some ["bio"]⟩

theorem c3_witness :
    c3Self ∉ getVisibleStaffAndMasking (some ["rmt"]) [] [c3DenyRule]
      [c3Self] ∧
    maskPerson [c3DenyRule] c3Self ∉
      getVisibleStaffAndMasking (some ["rmt"]) [] [c3DenyRule] [c3Self] :=
  c3_amended_no_self_exemption ["rmt"] [] [c3DenyRule] [c3Self] c3Self
    (by decide)

/-- Claim C5: field redaction.  Every member of the roster agrees with a
roster entry on all fields other than `work_phone` and `bio` (whose values
are either the original or the empty string); a controllable field is
non-empty in the output only if a matching rule lists it in
`visible_fields`; and when no matching rule lists the field, it is cleared
to the empty string. -/
theorem c5_field_redaction (roles locs : List String)
    (perms : List RolePermission) (staff : List StaffProfile) :
    ∀ q ∈ getVisibleStaffAndMasking (some roles) locs perms staff,
      (∃ p ∈ staff,
        q = { p with work_phone := q.work_phone, bio := q.bio } ∧
        (q.work_phone = p.work_phone ∨ q.work_phone = "") ∧
        (q.bio = p.bio ∨ q.bio = "")) ∧
      (q.work_phone ≠ "" → ∃ rule ∈ perms,
        some rule.target_department = lowerDept q ∧
        (rule.visible_fields.getD []).contains "work_phone" = true) ∧
      (q.bio ≠ "" → ∃ rule ∈ perms,
        some rule.target_department = lowerDept q ∧
        (rule.visible_fields.getD []).contains "bio" = true) ∧
      ((∀ rule ∈ perms, some rule.target_department = lowerDept q →
        (rule.visible_fields.getD []).contains "work_phone" = false) →
        q.work_phone = "") ∧
      ((∀ rule ∈ perms, some rule.target_department = lowerDept q →
        (rule.visible_fields.getD []).contains "bio" = false) →
        q.bio = "") := by
  intro q hq
  obtain ⟨roles', -, p, hp, hpass, hmask⟩ := mem_getVisible hq
  obtain ⟨rule, hfind, hview, hform⟩ :=
    mask_of_gate (deptGate_of_passesFilter hpass)
  obtain ⟨hmem, htd⟩ := findDeptRule_mem hfind
  subst hmask
  have htdq : some rule.target_department = lowerDept (maskPerson perms p) := by
    rw [lowerDept_maskPerson]
    exact htd
  have hwp : (maskPerson perms p).work_phone =
      if (rule.visible_fields.getD []).contains "work_phone" = true
      then p.work_phone else "" := by
    rw [hform]
  have hbio : (maskPerson perms p).bio =
      if (rule.visible_fields.getD []).contains "bio" = true
      then p.bio else "" := by
    rw [hform]
  refine ⟨⟨p, hp, maskPerson_eq_update perms p, ?_, ?_⟩, ?_, ?_, ?_, ?_⟩
  · by_cases hcw : (rule.visible_fields.getD []).contains "work_phone" = true
    · rw [hwp, if_pos hcw]; exact Or.inl rfl
    · rw [hwp, if_neg hcw]; exact Or.inr rfl
  · by_cases hcb : (rule.visible_fields.getD []).contains "bio" = true
    · rw [hbio, if_pos hcb]; exact Or.inl rfl
    · rw [hbio, if_neg hcb]; exact Or.inr rfl
  · intro hne
    refine ⟨rule, hmem, htdq, ?_⟩
    by_contra hcw
    rw [hwp, if_neg hcw] at hne
    exact hne rfl
  · intro hne
    refine ⟨rule, hmem, htdq, ?_⟩
    by_contra hcb
    rw [hbio, if_neg hcb] at hne
    exact hne rfl
  · intro hall
    have hc := hall rule hmem htdq
    rw [hwp, hc]
    simp
  · intro hall
    have hc := hall rule hmem htdq
    rw [hbio, hc]
    simp

/-- The spec scenario rule for C5: `{rmt, clinical, can_view = true,
visible_fields = ["bio"]}`. -/
def bioOnlyRule : RolePermission :=
  ⟨"perm5", "rmt", "clinical", true, some ["bio"]⟩

/-- A clinical-department target with non-empty phone and bio. -/
def clinicalTargetFull : StaffProfile :=
  { blankProfile with
    id := "clin2"
    department := some "clinical"
    work_phone := "604-555-0000"
    bio := "loves plants" }

theorem c5_witness :
    (getVisibleStaffAndMasking (some ["rmt"]) [] [bioOnlyRule]
        [clinicalTargetFull] =
      [{ clinicalTargetFull with work_phone := "" }]) ∧
    ((∃ p ∈ [clinicalTargetFull],
        maskPerson [bioOnlyRule] clinicalTargetFull =
          { p with
            work_phone := (maskPerson [bioOnlyRule] clinicalTargetFull).work_phone
            bio := (maskPerson [bioOnlyRule] clinicalTargetFull).bio } ∧
        ((maskPerson [bioOnlyRule] clinicalTargetFull).work_phone =
            p.work_phone ∨
          (maskPerson [bioOnlyRule] clinicalTargetFull).work_phone = "") ∧
        ((maskPerson [bioOnlyRule] clinicalTargetFull).bio = p.bio ∨
          (maskPerson [bioOnlyRule] clinicalTargetFull).bio = "")) ∧
      ((maskPerson [bioOnlyRule] clinicalTargetFull).work_phone ≠ "" →
        ∃ rule ∈ [bioOnlyRule],
          some rule.target_department =
            lowerDept (maskPerson [bioOnlyRule] clinicalTargetFull) ∧
          (rule.visible_fields.getD []).contains "work_phone" = true) ∧
      ((maskPerson [bioOnlyRule] clinicalTargetFull).bio ≠ "" →
        ∃ rule ∈ [bioOnlyRule],
          some rule.target_department =
            lowerDept (maskPerson [bioOnlyRule] clinicalTargetFull) ∧
          (rule.visible_fields.getD []).contains "bio" = true) ∧
      ((∀ rule ∈ [bioOnlyRule],
          some rule.target_department =
            lowerDept (maskPerson [bioOnlyRule] clinicalTargetFull) →
          (rule.visible_fields.getD []).contains "work_phone" = false) →
        (maskPerson [bioOnlyRule] clinicalTargetFull).work_phone = "") ∧
      ((∀ rule ∈ [bioOnlyRule],
          some rule.target_department =
            lowerDept (maskPerson [bioOnlyRule] clinicalTargetFull) →
          (rule.visible_fields.getD []).contains "bio" = false) →
        (maskPerson [bioOnlyRule] clinicalTargetFull).bio = "")) :=
  ⟨by decide,
    c5_field_redaction ["rmt"] [] [bioOnlyRule] [clinicalTargetFull]
      (maskPerson [bioOnlyRule] clinicalTargetFull) (by decide)⟩

/-- `List.find?` over an append scans the left list first. -/
theorem find?_append_orElse {α : Type} (pr : α → Bool) (l₁ l₂ : List α) :
    (l₁ ++ l₂).find? pr = (l₁.find? pr).orElse (fun _ => l₂.find? pr) := by
  induction l₁ with
  | nil => simp [Option.orElse]
  | cons x xs ih => by_cases h : pr x <;> simp [List.find?, h, ih]

/-- Appending a `can_view = false` rule never changes the department
gate. -/
theorem deptGate_append_deny (perms : List RolePermission)
    (i r d : String) (vf : Option (List String)) (p : StaffProfile) :
    deptGate (perms ++ [⟨i, r, d, false, vf⟩]) p = deptGate perms p := by
  unfold deptGate findDeptRule
  rw [find?_append_orElse]
  cases hf : perms.find?
      (fun pr => some pr.target_department == lowerDept p) with
  | some rule => rfl
  | none =>
    cases hc : (some d == lowerDept p) with
    | true => simp [List.find?, hc, Option.orElse]
    | false => simp [List.find?, hc, Option.orElse]

/-- Appending a `can_view = false` rule never changes the masking of a
person who passed the department gate. -/
theorem maskPerson_append_deny (perms : List RolePermission)
    (i r d : String) (vf : Option (List String)) (p : StaffProfile)
    (h : deptGate perms p = true) :
    maskPerson (perms ++ [⟨i, r, d, false, vf⟩]) p = maskPerson perms p := by
  unfold deptGate findDeptRule at h
  unfold maskPerson findDeptRule
  rw [find?_append_orElse]
  cases hf : perms.find?
      (fun pr => some pr.target_department == lowerDept p) with
  | some rule => rfl
  | none => rw [hf] at h; exact absurd h (by simp)

/-- Claim C7: `getVisibleStaffAndMasking` is total (it is a Lean function)
and degrades malformed input to a deny: every returned target has a
non-null department with a matching `can_view = true` rule, so a target
with a null department or with no matching rule is silently excluded
rather than faulting; and when the rule set has no rule at all for a
department `d`, adding an explicit `can_view = false` rule for `d` leaves
the output unchanged — absence of a rule behaves exactly like
`can_view = false`. -/
theorem c7_total_implicit_deny (ro : Option (List String))
    (locs : List String) (perms : List RolePermission)
    (staff : List StaffProfile) (i r d : String)
    (vf : Option (List String)) :
    (∀ q ∈ getVisibleStaffAndMasking ro locs perms staff,
      (∃ dep, q.department = some dep) ∧
      ∃ rule ∈ perms, some rule.target_department = lowerDept q ∧
        rule.can_view = true) ∧
    ((∀ p ∈ perms, p.target_department ≠ d) →
      getVisibleStaffAndMasking ro locs (perms ++ [⟨i, r, d, false, vf⟩])
        staff = getVisibleStaffAndMasking ro locs perms staff) := by
  constructor
  · intro q hq
    obtain ⟨rule, hmem, htd, hview⟩ := mem_getVisible_rule hq
    refine ⟨?_, rule, hmem, htd, hview⟩
    unfold lowerDept at htd
    cases hdep : q.department with
    | none => rw [hdep] at htd; exact absurd htd (by simp)
    | some dep => exact ⟨dep, rfl⟩
  · intro _habsent
    cases ro with
    | none => rfl
    | some roles =>
      cases hb : (roles.length == 0) with
      | true =>
        unfold getVisibleStaffAndMasking
        dsimp only
        rw [hb]
        rfl
      | false =>
        unfold getVisibleStaffAndMasking
        dsimp only
        rw [hb]
        simp only [Bool.false_eq_true, if_false]
        have hfilter : ∀ p : StaffProfile,
            passesFilter roles locs (perms ++ [⟨i, r, d, false, vf⟩]) p =
              passesFilter roles locs perms p := by
          intro p
          unfold passesFilter
          rw [deptGate_append_deny]
        rw [List.filter_congr (fun p _ => hfilter p)]
        apply List.map_congr_left
        intro p hp
        exact maskPerson_append_deny perms i r d vf p
          (deptGate_of_passesFilter (List.mem_filter.mp hp).2)

/-- A rule absent for the finance department: appending an explicit deny
rule for finance changes nothing; and the single returned target has a
known department with an allowing rule. -/
theorem c7_witness :
    ((∃ dep, (maskPerson [allowClinicalRule] clinicalTarget).department =
        some dep) ∧
      ∃ rule ∈ [allowClinicalRule],
        some rule.target_department =
          lowerDept (maskPerson [allowClinicalRule] clinicalTarget) ∧
        rule.can_view = true) ∧
    (getVisibleStaffAndMasking (some ["rmt"]) []
        ([allowClinicalRule] ++ [⟨"perm7", "rmt", "finance", false, some []⟩])
        [clinicalTarget] =
      getVisibleStaffAndMasking (some ["rmt"]) [] [allowClinicalRule]
        [clinicalTarget]) :=
  ⟨(c7_total_implicit_deny (some ["rmt"]) [] [allowClinicalRule]
      [clinicalTarget] "perm7" "rmt" "finance" (some [])).1
      (maskPerson [allowClinicalRule] clinicalTarget) (by decide),
    (c7_total_implicit_deny (some ["rmt"]) [] [allowClinicalRule]
      [clinicalTarget] "perm7" "rmt" "finance" (some [])).2 (by decide)⟩

/-- Modelled from the spec: the remote `role_permissions` store's
upsert-by-composite-key operation, which is missing from `src/` (the store
is the external "Permission Matrix Store" / "Remote tabular store" of
spec sections 2 and 6; `handleToggle` in Dashboard.tsx lines 3269-3283
only issues `supabase.from('role_permissions').upsert(rowObject,
{ onConflict: 'viewer_role, target_department' })`).  Per the spec,
"permission rules are created/updated via upsert keyed on the composite
key" and concurrent writes are "last writer wins (upsert overwrites)": a
stored row with the same `(viewer_role, target_department)` is overwritten
by the incoming row, otherwise the row is inserted. -/
def upsertRule (table : List RolePermission) (row : RolePermission) :
    List RolePermission :=
  if table.any (fun p => p.viewer_role == row.viewer_role &&
      p.target_department == row.target_department) then
    table.map (fun p =>
      if p.viewer_role == row.viewer_role &&
          p.target_department == row.target_department then row else p)
  else table ++ [row]

/-- After an upsert of `row`, the first stored row with `row`'s composite
key is `row` itself. -/
theorem find?_map_overwrite {α : Type} (key : α → Bool) (row : α)
    (hrow : key row = true) (t : List α) (h : t.any key = true) :
    (t.map (fun p => if key p = true then row else p)).find? key
      = some row := by
  induction t with
  | nil => simp at h
  | cons x xs ih =>
    cases hx : key x with
    | true => simp [List.find?, hx, hrow]
    | false =>
      rw [List.any_cons, hx, Bool.false_or] at h
      simp only [List.map_cons, List.find?, hx, Bool.false_eq_true, if_false]
      exact ih h

/-- Claim C8: upserting a permission rule keyed on the composite
`(viewer_role, target_department)` key is idempotent — upserting the same
row twice yields the same stored table as upserting it once (the second
upsert overwrites the row written by the first with identical content:
after either one, the stored row for the key is exactly `row`). -/
theorem c8_upsert_idempotent (table : List RolePermission)
    (row : RolePermission) :
    upsertRule (upsertRule table row) row = upsertRule table row ∧
    (upsertRule table row).find? (fun p =>
        p.viewer_role == row.viewer_role &&
        p.target_department == row.target_department) = some row := by
  have hrow : (row.viewer_role == row.viewer_role &&
      row.target_department == row.target_department) = true := by simp
  cases hmem : table.any (fun p => p.viewer_role == row.viewer_role &&
      p.target_department == row.target_department) with
  | false =>
    have htab : upsertRule table row = table ++ [row] := by
      unfold upsertRule
      rw [hmem]
      rfl
    have hnone : ∀ p ∈ table, (p.viewer_role == row.viewer_role &&
        p.target_department == row.target_department) = false := by
      intro p hp
      cases hk : (p.viewer_role == row.viewer_role &&
          p.target_department == row.target_department) with
      | false => rfl
      | true =>
        exact absurd hk (List.any_eq_false.mp hmem p hp)
    have h2 : ((table ++ [row]).any (fun p =>
        p.viewer_role == row.viewer_role &&
        p.target_department == row.target_department)) = true := by
      rw [List.any_append]
      simp [hrow]
    have hmapid : table.map (fun p =>
        if (p.viewer_role == row.viewer_role &&
            p.target_department == row.target_department) = true
        then row else p) = table := by
      have := List.map_congr_left (l := table)
        (f := fun p => if (p.viewer_role == row.viewer_role &&
            p.target_department == row.target_department) = true
          then row else p) (g := fun p => p)
        (fun p hp => by dsimp only; rw [hnone p hp]; simp)
      rw [this, List.map_id']
    constructor
    · rw [htab]
      unfold upsertRule
      rw [h2]
      rw [if_pos rfl]
      simp only [List.map_append, hmapid, List.map_cons, List.map_nil,
        ite_self]
    · rw [htab, find?_append_orElse]
      have hfn : table.find? (fun p =>
          p.viewer_role == row.viewer_role &&
          p.target_department == row.target_department) = none := by
        apply List.find?_eq_none.mpr
        intro p hp
        rw [hnone p hp]
        simp
      rw [hfn]
      simp [List.find?, hrow, Option.orElse]
  | true =>
    have htab : upsertRule table row = table.map (fun p =>
        if (p.viewer_role == row.viewer_role &&
            p.target_department == row.target_department) = true
        then row else p) := by
      unfold upsertRule
      rw [hmem]
      rfl
    obtain ⟨p0, hp0, hk0⟩ := List.any_eq_true.mp hmem
    have h2 : ((table.map (fun p =>
        if (p.viewer_role == row.viewer_role &&
            p.target_department == row.target_department) = true
        then row else p)).any (fun p =>
        p.viewer_role == row.viewer_role &&
        p.target_department == row.target_department)) = true := by
      apply List.any_eq_true.mpr
      refine ⟨row, ?_, hrow⟩
      apply List.mem_map.mpr
      exact ⟨p0, hp0, by rw [hk0]; simp⟩
    constructor
    · rw [htab]
      unfold upsertRule
      rw [h2]
      simp only [if_pos rfl, List.map_map]
      apply List.map_congr_left
      intro p _
      cases hk : (p.viewer_role == row.viewer_role &&
          p.target_department == row.target_department) with
      | true => simp [Function.comp, hk, hrow]
      | false => simp [Function.comp, hk]
    · rw [htab]
      exact find?_map_overwrite (fun p =>
        p.viewer_role == row.viewer_role &&
        p.target_department == row.target_department) row hrow table hmem

namespace ProfilePage

/-- `interface StaffProfile` of the profile-editing `Dashboard` component
(Dashboard.tsx lines 744-753). -/
structure StaffProfile where
  id : String
  first_name : String
  last_name : String
  role : String
  department : String
  clinic_locations : List String
  phone_number : String
  bio : String
deriving DecidableEq

/-- The component's `formData` state
(`useState({ phone_number: '', bio: '' })`, Dashboard.tsx line 764). -/
structure FormData where
  phone_number : String
  bio : String
deriving DecidableEq

/-- The local React state of the profile-editing component that
`handleSaveClick` reads and writes: the authenticated user (by id,
`null`-able), `profileData`, the edit/saving flags, the error and success
messages, and the form fields being edited. -/
structure State where
  user : Option String
  profileData : Option StaffProfile
  isEditing : Bool
  isSaving : Bool
  error : Option String
  successMessage : Option String
  formData : FormData
deriving DecidableEq

/-- `handleSaveClick` (Dashboard.tsx lines 826-850).  The single awaited
remote round trip `supabase.from('staff_profiles').update({...}).eq('id',
user.id)` is represented by its outcome `saveError` (`none` = success,
`some msg` = failure with `.message` `msg`; `msg = ""` models a falsy
message, for which the code falls back to a fixed text).  On failure only
the error message is set; `profileData` is only updated after a successful
write (and `setProfileData(prev => prev ? {...} : null)` keeps `null`
unchanged).  The `setTimeout` that later clears the success message is
outside this synchronous model. -/
def handleSaveClick (st : State) (saveError : Option String) : State :=
  match st.user with
  | none => st
  | some _ =>
    match saveError with
    | some msg =>
      { st with
        isSaving := false
        successMessage := none
        error := some (if msg = ""
          then "An error occurred while saving your profile." else msg) }
    | none =>
      { st with
        isSaving := false
        error := none
        profileData := st.profileData.map (fun p =>
          { p with
            phone_number := st.formData.phone_number
            bio := st.formData.bio })
        isEditing := false
        successMessage := some "Profile updated successfully!" }

end ProfilePage

/-- Claim C9: profile save is atomic with respect to local state.  If the
remote write fails, `profileData` is left exactly as it was (for any
failure message, and also when no user is logged in and no write is
attempted), an error message is surfaced, and edit mode is not left;
`profileData` is updated to the edited values only on the success path,
which also leaves edit mode and sets the success message. -/
theorem c9_save_atomic (st : ProfilePage.State) :
    (∀ e, (ProfilePage.handleSaveClick st (some e)).profileData =
      st.profileData) ∧
    (st.user ≠ none → ∀ e,
      (ProfilePage.handleSaveClick st (some e)).error =
        some (if e = "" then "An error occurred while saving your profile."
          else e) ∧
      (ProfilePage.handleSaveClick st (some e)).isEditing = st.isEditing) ∧
    (st.user ≠ none →
      (ProfilePage.handleSaveClick st none).profileData =
        st.profileData.map (fun p =>
          { p with
            phone_number := st.formData.phone_number
            bio := st.formData.bio }) ∧
      (ProfilePage.handleSaveClick st none).isEditing = false ∧
      (ProfilePage.handleSaveClick st none).successMessage =
        some "Profile updated successfully!") := by
  cases hu : st.user with
  | none =>
    refine ⟨?_, ?_, ?_⟩
    · intro e
      unfold ProfilePage.handleSaveClick
      rw [hu]
    · intro hne
      exact absurd rfl hne
    · intro hne
      exact absurd rfl hne
  | some u =>
    refine ⟨?_, ?_, ?_⟩
    · intro e
      unfold ProfilePage.handleSaveClick
      rw [hu]
    · intro _ e
      unfold ProfilePage.handleSaveClick
      rw [hu]
      exact ⟨rfl, rfl⟩
    · intro _
      unfold ProfilePage.handleSaveClick
      rw [hu]
      exact ⟨rfl, rfl, rfl⟩

/-- A concrete profile-page state: logged-in user `u1`, loaded profile,
form holding edited phone and bio. -/
def demoState : ProfilePage.State :=
  ⟨some "u1",
    some ⟨"u1", "Ada", "Lovelace", "rmt", "clinical", ["Burnaby"],
      "604-000-0000", "old bio"⟩,
    true, false, none, none, ⟨"604-999-9999", "new bio"⟩⟩

theorem c9_witness :
    ((ProfilePage.handleSaveClick demoState (some "network down")).profileData
      = demoState.profileData) ∧
    ((ProfilePage.handleSaveClick demoState (some "network down")).error =
      some "network down") ∧
    ((ProfilePage.handleSaveClick demoState none).profileData =
      some ⟨"u1", "Ada", "Lovelace", "rmt", "clinical", ["Burnaby"],
        "604-999-9999", "new bio"⟩) :=
  ⟨(c9_save_atomic demoState).1 "network down",
    by
      have h := ((c9_save_atomic demoState).2.1 (by decide)
        "network down").1
      rw [h]
      decide,
    by
      have h := ((c9_save_atomic demoState).2.2 (by decide)).1
      rw [h]
      decide⟩

end PhoenixHub
